import Mathlib

/-!
Verification of the audio-wave visualizer core against its specification.

The C++ sources are shallowly embedded:
* `float` values are modelled as real numbers (`ℝ`);
* `uint32_t` values are modelled as natural numbers with explicit `% 2^32`
  where wraparound matters;
* `std::vector<float>` is modelled as `List ℝ`; a possibly-null pointer to a
  sample block is `Option (List ℝ)`;
* GPU vertex emission (`gs_render_start` / `gs_vertex2f` / `gs_render_stop`)
  is modelled as a list of primitive batches; solid-color parameter updates
  are not part of the vertex stream and are not modelled.

Each definition names the C++ function it embeds (file and function given in
its doc comment).
-/

namespace AudioWave

/-- Model of `std::clamp(v, lo, hi)` for floats (from `<algorithm>`):
returns `lo` if `v < lo`, `hi` if `hi < v`, else `v`. -/
noncomputable def aw_clamp (v lo hi : ℝ) : ℝ :=
  if v < lo then lo else if hi < v then hi else v

/-- Model of `std::clamp` on C `int` values. -/
def aw_clamp_int (v lo hi : ℤ) : ℤ :=
  if v < lo then lo else if hi < v then hi else v

theorem aw_clamp_of_nonneg_le (v : ℝ) (h0 : 0 ≤ v) :
    aw_clamp v 0 1 = if 1 < v then 1 else v := by
  unfold aw_clamp
  rw [if_neg (not_lt.mpr h0)]

theorem aw_clamp_le_left (v lo hi : ℝ) (h : lo ≤ hi) : lo ≤ aw_clamp v lo hi := by
  unfold aw_clamp
  split
  · exact le_refl lo
  · split
    · exact h
    · linarith [not_lt.mp (by assumption : ¬v < lo)]

theorem aw_clamp_le_right (v lo hi : ℝ) (h : lo ≤ hi) : aw_clamp v lo hi ≤ hi := by
  unfold aw_clamp
  split
  · exact h
  · split
    · exact le_refl hi
    · linarith [not_lt.mp (by assumption : ¬hi < v)]

/--
Model of the per-instance state `struct audio_wave_source`
(`src/includes/audio-wave.hpp`), restricted to the fields the verified
operations read or write.  `theme_style_id` is the style string inside the
active theme; `gradient_lut` is the 256-entry gradient lookup table
(`std::array<uint32_t, 256>`, hence the length-256 hypotheses in theorems);
`gain` is the linear amplitude multiplier used by `audio_wave_build_wave`.
-/
structure audio_wave_source where
  samples_left : List ℝ
  samples_right : List ℝ
  num_samples : ℕ
  wave : List ℝ
  gain : ℝ
  width : ℤ
  height : ℤ
  react_db : ℝ
  peak_db : ℝ
  curve_power : ℝ
  color : ℕ
  gradient_enabled : Bool
  gradient_lut : List ℕ
  mirror : Bool
  theme_style_id : String

/-- Model of `std::vector<float>::resize(n)`: the first `min n (length)`
elements are kept, any new elements are value-initialized to `0`. -/
def vector_resize (v : List ℝ) (n : ℕ) : List ℝ :=
  v.take n ++ List.replicate (n - v.length) 0

/-- Model of `std::memcpy(dst.data(), src, n * sizeof(float))` on a vector
`dst`: the first `n` elements are overwritten with the first `n` elements of
the source block, the rest of `dst` is unchanged. -/
def memcpy_into (dst src : List ℝ) (n : ℕ) : List ℝ :=
  src.take n ++ dst.drop n

theorem vector_resize_length (v : List ℝ) (n : ℕ) :
    (vector_resize v n).length = n := by
  simp [vector_resize]
  omega

theorem memcpy_into_full (dst src : List ℝ) (n : ℕ)
    (hd : dst.length = n) (hs : src.length = n) :
    memcpy_into dst src n = src := by
  simp [memcpy_into, List.drop_eq_nil_of_le (le_of_eq hd), List.take_of_length_le (le_of_eq hs)]

/--
Embedding of `audio_capture_cb` (`src/audio-wave.cpp`, lines 537-565).
`frames`/`data0`/`data1` model `audio->frames`, `audio->data[0]` and
`audio->data[1]`; a null channel pointer is `none`.  The early-outs
(`muted || audio->frames == 0 || !audio->data[0]`), the lazy resizes
(skipped when a buffer already has size `frames`), the two `memcpy`s with
left-channel duplication for mono input, and the final `num_samples`
assignment are translated directly.
-/
def audio_capture_cb (s : audio_wave_source) (frames : ℕ)
    (data0 data1 : Option (List ℝ)) (muted : Bool) : audio_wave_source :=
  match data0 with
  | none => s
  | some left =>
    if muted = true ∨ frames = 0 then s
    else
      let sl0 := if s.samples_left.length ≠ frames then vector_resize s.samples_left frames
                 else s.samples_left
      let sr0 := if s.samples_right.length ≠ frames then vector_resize s.samples_right frames
                 else s.samples_right
      let sl := memcpy_into sl0 left frames
      let sr := match data1 with
        | some right => memcpy_into sr0 right frames
        | none => memcpy_into sr0 left frames
      { s with samples_left := sl, samples_right := sr, num_samples := frames }

/--
Embedding of `audio_wave_build_wave` (`src/audio-wave-render.cpp`,
lines 116-142; the copy in `src/audio-wave.cpp` lines 164-190 is identical).
The `s->wave.resize(frames)` followed by a loop that assigns every index
`i < frames` is modelled as a map over `List.range frames`; the guarded
reads `(i < L.size()) ? L[i] : 0.0f` and `(i < R.size()) ? R[i] : l` are
`List.getD`.
-/
noncomputable def audio_wave_build_wave (s : audio_wave_source) : audio_wave_source :=
  let frames := s.num_samples
  if frames = 0 ∨ s.samples_left = [] then { s with wave := [] }
  else
    { s with wave := (List.range frames).map (fun i =>
        let l := s.samples_left.getD i 0
        let r := s.samples_right.getD i l
        let m := s.gain * 0.5 * (|l| + |r|)
        if 1 < m then 1 else m) }

theorem memcpy_into_length (dst src : List ℝ) (n : ℕ)
    (hd : dst.length = n) (hs : n ≤ src.length) :
    (memcpy_into dst src n).length = n := by
  simp [memcpy_into]
  omega

/-- A concrete state used to instantiate theorems with hypotheses. -/
def state0 : audio_wave_source :=
  { samples_left := [], samples_right := [], num_samples := 0,
    wave := [], gain := 1, width := 4, height := 2, react_db := -50, peak_db := -6,
    curve_power := 1, color := 0xFFFFFF, gradient_enabled := false, gradient_lut := [],
    mirror := false, theme_style_id := "linear" }

theorem audio_capture_cb_reject (s : audio_wave_source) (frames : ℕ)
    (d0 d1 : Option (List ℝ)) (muted : Bool)
    (h : muted = true ∨ frames = 0 ∨ d0 = none) :
    audio_capture_cb s frames d0 d1 muted = s := by
  cases d0 with
  | none => rfl
  | some left =>
    have h' : muted = true ∨ frames = 0 := by
      rcases h with h | h | h
      · exact Or.inl h
      · exact Or.inr h
      · exact absurd h (by simp)
    simp [audio_capture_cb, h']

theorem audio_capture_cb_accept (s : audio_wave_source) (frames : ℕ)
    (left : List ℝ) (d1 : Option (List ℝ))
    (hl : left.length = frames) (hf : 0 < frames)
    (h1 : ∀ r, d1 = some r → r.length = frames) :
    audio_capture_cb s frames (some left) d1 false =
      { s with samples_left := left, samples_right := d1.getD left,
               num_samples := frames } := by
  have hf0 : frames ≠ 0 := by omega
  have hsl0 : (if s.samples_left.length ≠ frames then vector_resize s.samples_left frames
               else s.samples_left).length = frames := by
    split
    · exact vector_resize_length _ _
    · next h => omega
  have hsr0 : (if s.samples_right.length ≠ frames then vector_resize s.samples_right frames
               else s.samples_right).length = frames := by
    split
    · exact vector_resize_length _ _
    · next h => omega
  cases d1 with
  | none =>
      simp only [audio_capture_cb, Option.getD_none]
      rw [if_neg (by simp [hf0])]
      rw [memcpy_into_full _ _ _ hsl0 hl, memcpy_into_full _ _ _ hsr0 hl]
  | some right =>
      simp only [audio_capture_cb, Option.getD_some]
      rw [if_neg (by simp [hf0])]
      rw [memcpy_into_full _ _ _ hsl0 hl, memcpy_into_full _ _ _ hsr0 (h1 right rfl)]

/-- C3: every invocation of the audio capture callback either rejects the
block (muted, zero frames, or null left pointer) leaving the stored sample
buffers and `num_samples` unchanged, or accepts it, after which both channel
buffers have length exactly `frames`, the left buffer is a copy of the
delivered left block, the right buffer is a copy of the delivered right block
(or a duplicate of the left block when the right pointer is null), and
`num_samples` equals `frames`. -/
theorem audio_capture_cb_correct (s : audio_wave_source) :
    (∀ frames d0 d1 muted, (muted = true ∨ frames = 0 ∨ d0 = none) →
        audio_capture_cb s frames d0 d1 muted = s) ∧
    (∀ frames left d1, left.length = frames → 0 < frames →
        (∀ r, d1 = some r → r.length = frames) →
        (audio_capture_cb s frames (some left) d1 false).samples_left.length = frames ∧
        (audio_capture_cb s frames (some left) d1 false).samples_right.length = frames ∧
        (audio_capture_cb s frames (some left) d1 false).samples_left = left ∧
        (audio_capture_cb s frames (some left) d1 false).samples_right = d1.getD left ∧
        (audio_capture_cb s frames (some left) d1 false).num_samples = frames) := by
  constructor
  · intro frames d0 d1 muted h
    exact audio_capture_cb_reject s frames d0 d1 muted h
  · intro frames left d1 hl hf h1
    rw [audio_capture_cb_accept s frames left d1 hl hf h1]
    refine ⟨hl, ?_, rfl, rfl, rfl⟩
    cases d1 with
    | none => exact hl
    | some right => simpa using h1 right rfl

theorem audio_capture_cb_correct_witness :
    ((2 : ℕ) = 0 ∨ (none : Option (List ℝ)) = none) ∧
    (audio_capture_cb state0 2 none (some [3, 4]) false = state0) ∧
    ([(1 : ℝ), -1].length = 2 ∧ (0 : ℕ) < 2) ∧
    (audio_capture_cb state0 2 (some [1, -1]) none false).samples_left = [1, -1] ∧
    (audio_capture_cb state0 2 (some [1, -1]) none false).samples_right = [1, -1] ∧
    (audio_capture_cb state0 2 (some [1, -1]) none false).num_samples = 2 := by
  have h := audio_capture_cb_correct state0
  refine ⟨Or.inr rfl, h.1 2 none (some [3, 4]) false (Or.inr (Or.inr rfl)), ⟨by simp, by omega⟩,
    ?_, ?_, ?_⟩
  · exact (h.2 2 [1, -1] none (by simp) (by omega) (by simp)).2.2.1
  · simpa using (h.2 2 [1, -1] none (by simp) (by omega) (by simp)).2.2.2.1
  · exact (h.2 2 [1, -1] none (by simp) (by omega) (by simp)).2.2.2.2

/-- C9: the invariant `samples_left.length = samples_right.length = num_samples`
is preserved by every audio-capture callback (an accepted block sets all three
to the delivered frame count, a rejected block leaves them unchanged), so any
reader indexing both channels below `num_samples` stays in bounds. -/
theorem audio_capture_cb_invariant (s : audio_wave_source) (frames : ℕ)
    (d0 d1 : Option (List ℝ)) (muted : Bool)
    (h0 : ∀ l, d0 = some l → l.length = frames)
    (h1 : ∀ r, d1 = some r → r.length = frames)
    (hl : s.samples_left.length = s.num_samples)
    (hr : s.samples_right.length = s.num_samples) :
    ((audio_capture_cb s frames d0 d1 muted).samples_left.length =
      (audio_capture_cb s frames d0 d1 muted).num_samples) ∧
    ((audio_capture_cb s frames d0 d1 muted).samples_right.length =
      (audio_capture_cb s frames d0 d1 muted).num_samples) ∧
    (∀ i, i < (audio_capture_cb s frames d0 d1 muted).num_samples →
      i < (audio_capture_cb s frames d0 d1 muted).samples_left.length ∧
      i < (audio_capture_cb s frames d0 d1 muted).samples_right.length) := by
  have main : (audio_capture_cb s frames d0 d1 muted).samples_left.length =
      (audio_capture_cb s frames d0 d1 muted).num_samples ∧
      (audio_capture_cb s frames d0 d1 muted).samples_right.length =
      (audio_capture_cb s frames d0 d1 muted).num_samples := by
    cases d0 with
    | none => rw [audio_capture_cb_reject s frames none d1 muted (Or.inr (Or.inr rfl))]
              exact ⟨hl, hr⟩
    | some left =>
      by_cases hm : muted = true ∨ frames = 0
      · rw [audio_capture_cb_reject s frames (some left) d1 muted
          (hm.elim Or.inl (fun h => Or.inr (Or.inl h)))]
        exact ⟨hl, hr⟩
      · push_neg at hm
        have hmf : muted = false := by
          cases muted
          · rfl
          · exact absurd rfl hm.1
        have hf : 0 < frames := Nat.pos_of_ne_zero hm.2
        subst hmf
        rw [audio_capture_cb_accept s frames left d1 (h0 left rfl) hf h1]
        refine ⟨h0 left rfl, ?_⟩
        cases d1 with
        | none => exact h0 left rfl
        | some right => simpa using h1 right rfl
  exact ⟨main.1, main.2, fun i hi => ⟨main.1 ▸ hi, main.2 ▸ hi⟩⟩

theorem audio_capture_cb_invariant_witness :
    ((∀ l, (some [(5 : ℝ)]) = some l → l.length = 1) ∧
     state0.samples_left.length = state0.num_samples) ∧
    (audio_capture_cb state0 1 (some [5]) (some [6]) false).samples_left.length =
      (audio_capture_cb state0 1 (some [5]) (some [6]) false).num_samples ∧
    (audio_capture_cb state0 1 (some [5]) (some [6]) false).samples_right.length =
      (audio_capture_cb state0 1 (some [5]) (some [6]) false).num_samples := by
  have h := audio_capture_cb_invariant state0 1 (some [5]) (some [6]) false
    (by intro l hl; cases hl; simp) (by intro r hr; cases hr; simp)
    (by simp [state0]) (by simp [state0])
  exact ⟨⟨by intro l hl; cases hl; simp, by simp [state0]⟩, h.1, h.2.1⟩

/-- C4: after amplitude extraction with `N = num_samples > 0` stored frames and
a non-empty left buffer, the amplitude array has length `N` and element `i`
equals `clamp(gain * 0.5 * (|L[i]| + |R[i]|), 0, 1)` for every `i < N`; when
`N = 0` or the left buffer is empty the amplitude array becomes empty.  The
hypotheses are the buffer-length invariant maintained by the capture callback
and nonnegativity of the configured gain (the configuration clamps it to
`[0.1, 4.0]`). -/
theorem audio_wave_build_wave_correct (s : audio_wave_source)
    (hg : 0 ≤ s.gain)
    (hL : s.num_samples ≤ s.samples_left.length)
    (hR : s.num_samples ≤ s.samples_right.length) :
    (0 < s.num_samples → s.samples_left ≠ [] →
      (audio_wave_build_wave s).wave.length = s.num_samples ∧
      ∀ i, i < s.num_samples →
        (audio_wave_build_wave s).wave.getD i 0 =
          aw_clamp (s.gain * 0.5 *
            (|s.samples_left.getD i 0| + |s.samples_right.getD i 0|)) 0 1) ∧
    ((s.num_samples = 0 ∨ s.samples_left = []) → (audio_wave_build_wave s).wave = []) := by
  constructor
  · intro hpos hne
    have hcond : ¬(s.num_samples = 0 ∨ s.samples_left = []) := by
      push_neg
      exact ⟨by omega, hne⟩
    constructor
    · simp [audio_wave_build_wave, hcond]
    · intro i hi
      have hiL : i < s.samples_left.length := lt_of_lt_of_le hi hL
      have hiR : i < s.samples_right.length := lt_of_lt_of_le hi hR
      have hm : 0 ≤ s.gain * 0.5 *
          (|s.samples_left.getD i 0| + |s.samples_right.getD i 0|) := by
        have h1 := abs_nonneg (s.samples_left.getD i 0)
        have h2 := abs_nonneg (s.samples_right.getD i 0)
        positivity
      rw [aw_clamp_of_nonneg_le _ hm]
      simp only [audio_wave_build_wave, if_neg hcond]
      rw [List.getD_eq_getElem _ _ (by simpa using hi)]
      simp only [List.getElem_map, List.getElem_range]
      rw [List.getD_eq_getElem s.samples_right _ hiR,
          List.getD_eq_getElem s.samples_right _ hiR]
  · intro h
    simp [audio_wave_build_wave, h]

/-- A one-frame state with half-scale samples on both channels. -/
def state1 : audio_wave_source :=
  { state0 with samples_left := [0.5], samples_right := [0.5], num_samples := 1 }

theorem audio_wave_build_wave_correct_witness :
    ((0 : ℝ) ≤ state1.gain ∧ state1.num_samples ≤ state1.samples_left.length ∧
      state1.num_samples ≤ state1.samples_right.length ∧ 0 < state1.num_samples ∧
      state1.samples_left ≠ []) ∧
    (audio_wave_build_wave state1).wave.length = state1.num_samples ∧
    (audio_wave_build_wave state1).wave.getD 0 0 =
      aw_clamp (state1.gain * 0.5 * (|state1.samples_left.getD 0 0| +
        |state1.samples_right.getD 0 0|)) 0 1 := by
  have h := audio_wave_build_wave_correct state1 (by norm_num [state1, state0])
    (by norm_num [state1, state0]) (by norm_num [state1, state0])
  have h2 := h.1 (by norm_num [state1, state0]) (by simp [state1, state0])
  exact ⟨⟨by norm_num [state1, state0], by norm_num [state1, state0],
    by norm_num [state1, state0], by norm_num [state1, state0], by simp [state1, state0]⟩,
    h2.1, h2.2 0 (by norm_num [state1, state0])⟩

/-- Model of `std::lround`: round to nearest integer, ties away from zero. -/
noncomputable def aw_lround (x : ℝ) : ℤ :=
  if x < 0 then ⌈x - 1 / 2⌉ else ⌊x + 1 / 2⌋

/--
Embedding of `aw_gradient_color_at` (`src/includes/audio-wave.hpp`,
lines 100-112).  The possibly-null `const audio_wave_source *` is an
`Option`; the `std::array<uint32_t, 256>` access `gradient_lut[...]` is a
fallible list access, so that an out-of-bounds index would be observable as
`none`.
-/
noncomputable def aw_gradient_color_at (s : Option audio_wave_source) (t : ℝ) : Option ℕ :=
  match s with
  | none => some 0xFFFFFF
  | some s =>
    if s.gradient_enabled = false then some s.color
    else
      let t1 := if t < 0 then 0 else t
      let t2 := if 1 < t1 then 1 else t1
      let idx : ℤ := aw_lround (t2 * 255)
      s.gradient_lut[(aw_clamp_int idx 0 255).toNat]?

theorem aw_clamp_int_toNat_lt_256 (i : ℤ) : (aw_clamp_int i 0 255).toNat < 256 := by
  unfold aw_clamp_int
  split
  · simp
  · split
    · simp
    · next h1 h2 => omega

/-- C10: the gradient color lookup is total and never indexes out of bounds:
a null source yields `0xFFFFFF`, a source with the gradient disabled yields
its primary color unchanged, and otherwise (for every `t`, in or out of
`[0,1]`) the clamped index stays below 256 and the 256-entry lookup table
access succeeds. -/
theorem aw_gradient_color_at_total (s : Option audio_wave_source) (t : ℝ)
    (hlut : ∀ src, s = some src → src.gradient_lut.length = 256) :
    (aw_gradient_color_at s t).isSome = true ∧
    (s = none → aw_gradient_color_at s t = some 0xFFFFFF) ∧
    (∀ src, s = some src → src.gradient_enabled = false →
      aw_gradient_color_at s t = some src.color) := by
  cases s with
  | none =>
    refine ⟨rfl, fun _ => rfl, ?_⟩
    intro src h
    simp at h
  | some src =>
    have hlen := hlut src rfl
    refine ⟨?_, ?_, ?_⟩
    · by_cases hg : src.gradient_enabled = false
      · simp [aw_gradient_color_at, hg]
      · simp only [aw_gradient_color_at, if_neg hg]
        rw [List.getElem?_eq_getElem (by rw [hlen]; exact aw_clamp_int_toNat_lt_256 _)]
        simp
    · intro h
      simp at h
    · intro src' h hg
      cases h
      simp [aw_gradient_color_at, hg]

/-- A state with the gradient enabled and a constant 256-entry lookup table. -/
def state_grad : audio_wave_source :=
  { state0 with gradient_enabled := true, gradient_lut := List.replicate 256 0x123456 }

theorem aw_gradient_color_at_total_witness :
    (∀ src : audio_wave_source, some state_grad = some src →
        src.gradient_lut.length = 256) ∧
    (aw_gradient_color_at (some state_grad) 2.5).isSome = true := by
  have hl : ∀ src : audio_wave_source, some state_grad = some src →
      src.gradient_lut.length = 256 := by
    intro src h
    cases h
    have hg : state_grad.gradient_lut = List.replicate 256 0x123456 := rfl
    rw [hg, List.length_replicate]
  exact ⟨hl, (aw_gradient_color_at_total _ 2.5 hl).1⟩

/--
Embedding of the left-to-right spatial smoothing pass used inside the theme
draw functions (`theme-line.cpp` `draw_line_linear` lines 141-151; the same
loop appears with alpha 0.20 in `draw_line_filled` lines 252-259 and with
alpha 0.25 in `fluidblob_theme_draw` lines 177-186): `s[0] = v[0]`,
`s[i] = s[i-1] + alpha * (v[i] - s[i-1])`, parametrized by the fixed alpha.
-/
def spatial_smooth (alpha : ℝ) (amp : List ℝ) : List ℝ :=
  match amp with
  | [] => []
  | a0 :: rest => List.scanl (fun prev v => prev + alpha * (v - prev)) a0 rest

/--
Embedding of the circularly wrapped variant in `fluidblob_theme_draw`
(`theme-fluidblob.cpp` lines 177-189): after the left-to-right pass, the
first element is blended with the last
(`amp_smooth[0] = 0.5f * (amp_smooth[0] + amp_smooth[segments - 1])`).
-/
def fluidblob_spatial_smooth (alpha : ℝ) (amp : List ℝ) : List ℝ :=
  match h : spatial_smooth alpha amp with
  | [] => []
  | s0 :: tail => (0.5 * (s0 + (s0 :: tail).getLast (by simp))) :: tail

theorem scanl_smooth_const (alpha v : ℝ) :
    ∀ (l : List ℝ), (∀ x ∈ l, x = v) →
      List.scanl (fun prev x => prev + alpha * (x - prev)) v l = v :: l := by
  intro l
  induction l with
  | nil => intro _; rfl
  | cons a rest ih =>
    intro h
    have ha : a = v := h a (by simp)
    have hfix : v + alpha * (a - v) = v := by rw [ha]; ring
    rw [List.scanl_cons]
    simp [hfix, ih (fun x hx => h x (by simp [hx])), ha]

/-- C7: for every input array all of whose elements equal some value `v` and
every smoothing coefficient `alpha`, the left-to-right spatial smoothing pass
— and the circularly wrapped fluidblob variant that blends `s[0]` with
`s[last]` — return the array unchanged, so every output element equals `v`
exactly (constant arrays are fixed points). -/
theorem spatial_smooth_const_fixed_point (alpha v : ℝ) (amp : List ℝ)
    (h : ∀ x ∈ amp, x = v) :
    spatial_smooth alpha amp = amp ∧
    fluidblob_spatial_smooth alpha amp = amp ∧
    (∀ x ∈ spatial_smooth alpha amp, x = v) ∧
    (∀ x ∈ fluidblob_spatial_smooth alpha amp, x = v) := by
  have hs : spatial_smooth alpha amp = amp := by
    cases amp with
    | nil => rfl
    | cons a0 rest =>
      have ha0 : a0 = v := h a0 (by simp)
      show List.scanl (fun prev x => prev + alpha * (x - prev)) a0 rest = a0 :: rest
      rw [ha0, scanl_smooth_const alpha v rest (fun x hx => h x (by simp [hx])), ← ha0]
  have hf : fluidblob_spatial_smooth alpha amp = amp := by
    unfold fluidblob_spatial_smooth
    cases amp with
    | nil => rfl
    | cons a0 rest =>
      split
      · next heq => rw [hs] at heq; cases heq
      · next s0 tail heq =>
        rw [hs] at heq
        cases heq
        have hlast : (a0 :: rest).getLast (by simp) = v :=
          h _ (List.getLast_mem (by simp))
        have ha0 : a0 = v := h a0 (by simp)
        rw [hlast, ha0]
        norm_num
        ring
  exact ⟨hs, hf, fun x hx => h x (hs ▸ hx), fun x hx => h x (hf ▸ hx)⟩

theorem spatial_smooth_const_fixed_point_witness :
    (∀ x ∈ [(2 : ℝ), 2, 2], x = 2) ∧
    spatial_smooth (3 / 20) [(2 : ℝ), 2, 2] = [2, 2, 2] ∧
    fluidblob_spatial_smooth (1 / 4) [(2 : ℝ), 2, 2] = [2, 2, 2] := by
  have hmem : ∀ x ∈ [(2 : ℝ), 2, 2], x = 2 := by
    intro x hx
    simp only [List.mem_cons, List.not_mem_nil, or_false] at hx
    rcases hx with h | h | h <;> exact h
  exact ⟨hmem, (spatial_smooth_const_fixed_point (3 / 20) 2 _ hmem).1,
    (spatial_smooth_const_fixed_point (1 / 4) 2 _ hmem).2.1⟩

/-- The 32-bit xorshift state transition shared by the two particle-reseed
generators: `x ^= x << 13; x ^= x >> 17; x ^= x << 5;` on `uint32_t`,
modelled on ℕ with explicit `% 2^32` where a left shift can overflow. -/
def xorshift32 (seed : ℕ) : ℕ :=
  let x0 := seed % 2 ^ 32
  let x1 := x0 ^^^ ((x0 <<< 13) % 2 ^ 32)
  let x2 := x1 ^^^ (x1 >>> 17)
  x2 ^^^ ((x2 <<< 5) % 2 ^ 32)

/-- Embedding of `msq_pseudo_rand01` (`theme-magicsquare.cpp`, lines 49-56):
xorshift the seed, mask the low 24 bits (`x & 0x00FFFFFFu`) and divide by
`0x01000000`.  The result is an exact dyadic rational, so the float value is
modelled as ℚ. -/
def msq_pseudo_rand01 (seed : ℕ) : ℚ :=
  ((xorshift32 seed &&& 0xFFFFFF : ℕ) : ℚ) / 0x1000000

/-- Embedding of `mm_pseudo_rand01` (`theme-musicmagic.cpp`, lines 49-56),
textually identical to `msq_pseudo_rand01`. -/
def mm_pseudo_rand01 (seed : ℕ) : ℚ :=
  ((xorshift32 seed &&& 0xFFFFFF : ℕ) : ℚ) / 0x1000000

/-- The claim's reading of the normalization: take the TOP 24 bits of the
32-bit xorshift result (`x >> 8`) and divide by `2^24`. -/
def claimed_pseudo_rand01_top24 (seed : ℕ) : ℚ :=
  ((xorshift32 seed >>> 8 : ℕ) : ℚ) / 0x1000000

/-- C8 counterexample: at seed 1 the generators normalize the LOW 24 bits of
the xorshift result (`x & 0x00FFFFFF`), which differs from the claimed
normalization of the top 24 bits. -/
theorem msq_pseudo_rand01_not_top24 :
    msq_pseudo_rand01 1 ≠ claimed_pseudo_rand01_top24 1 ∧
    msq_pseudo_rand01 1 = 270369 / 16777216 ∧
    claimed_pseudo_rand01_top24 1 = 1056 / 16777216 := by
  have hx : xorshift32 1 = 270369 := by decide
  have ha : (270369 : ℕ) &&& 0xFFFFFF = 270369 := by decide
  have hb : (270369 : ℕ) >>> 8 = 1056 := by decide
  have h1 : msq_pseudo_rand01 1 = 270369 / 16777216 := by
    unfold msq_pseudo_rand01
    rw [hx, ha]
    norm_num
  have h2 : claimed_pseudo_rand01_top24 1 = 1056 / 16777216 := by
    unfold claimed_pseudo_rand01_top24
    rw [hx, hb]
    norm_num
  refine ⟨?_, h1, h2⟩
  rw [h1, h2]
  norm_num

/-- C8 amended: both particle-reseed generators apply the xorshift steps
`x ^= x << 13; x ^= x >> 17; x ^= x << 5` in 32-bit modular arithmetic and
normalize the BOTTOM 24 bits of the result into a value in `[0, 1)`; the two
generators agree on every seed (the function is deterministic, so two
evaluations at the same seed are bit-identical by construction). -/
theorem msq_pseudo_rand01_spec (seed : ℕ) :
    msq_pseudo_rand01 seed =
      ((xorshift32 seed &&& 0xFFFFFF : ℕ) : ℚ) / 2 ^ 24 ∧
    mm_pseudo_rand01 seed = msq_pseudo_rand01 seed ∧
    0 ≤ msq_pseudo_rand01 seed ∧ msq_pseudo_rand01 seed < 1 := by
  refine ⟨by norm_num [msq_pseudo_rand01], rfl, ?_, ?_⟩
  · unfold msq_pseudo_rand01
    positivity
  unfold msq_pseudo_rand01
  rw [div_lt_one (by norm_num)]
  have h : xorshift32 seed &&& 0xFFFFFF < 2 ^ 24 :=
    Nat.and_lt_two_pow _ (by norm_num)
  calc ((xorshift32 seed &&& 0xFFFFFF : ℕ) : ℚ) < ((2 ^ 24 : ℕ) : ℚ) := by
        exact_mod_cast h
    _ = 0x1000000 := by norm_num

theorem aw_clamp_of_nonpos (v : ℝ) (h : v ≤ 0) : aw_clamp v 0 1 = 0 := by
  unfold aw_clamp
  split
  · rfl
  · next h1 =>
    have hv : v = 0 := le_antisymm h (not_lt.mp h1)
    rw [if_neg (by rw [hv]; norm_num), hv]

/-- Embedding of `sc_db_from_amp` (`theme-stacked-columns.cpp`, lines 85-90):
`a <= 1e-6 ? -120 : 20 * log10(a)`. -/
noncomputable def sc_db_from_amp (a : ℝ) : ℝ :=
  if a ≤ 1e-6 then -120 else 20 * Real.logb 10 a

/-- Embedding of the per-column dBFS normalization in the stacked-columns
`draw` (`theme-stacked-columns.cpp`, lines 146-151): `norm` starts at 0 and,
only when `db > react_db`, becomes
`clamp((db - react_db) / (peak_db - react_db + 1e-3), 0, 1)`.
(The subsequent `audio_wave_apply_curve` call on line 152 is a separate
shaping step, not part of the dB mapping.) -/
noncomputable def sc_norm_from_amp (a react peak : ℝ) : ℝ :=
  let db := sc_db_from_amp a
  if react < db then aw_clamp ((db - react) / (peak - react + 1e-3)) 0 1 else 0

/-- The claim's formula for the dBFS policy, with denominator
`max(peakDb - reactDb, 0.1)`. -/
noncomputable def claimed_dbfs_norm (a react peak : ℝ) : ℝ :=
  let db := if 1e-6 < a then 20 * Real.logb 10 a else -120
  aw_clamp ((db - react) / max (peak - react) 0.1) 0 1

/-- Modelled from the spec: the configuration reader for `react_db` /
`peak_db` is absent from src (the core update in `src/audio-wave.cpp`
predates these settings; only the fields exist in
`includes/audio-wave.hpp` lines 72-73).  Spec §4.2: "PeakDb is forced
≥ reactDb+0.1 at configuration time". -/
noncomputable def aw_configured_peak_db (react peak : ℝ) : ℝ :=
  max peak (react + 0.1)

/-- C5 counterexample: at linear amplitude 1/10 (exactly -20 dBFS) with
react = -50 and peak = -6, the code divides by `peak - react + 1e-3 =
44.001`, whereas the claim's formula divides by `max(peak - react, 0.1) =
44`; the two normalized responses differ. -/
theorem sc_norm_from_amp_counterexample :
    sc_norm_from_amp (1 / 10) (-50) (-6) ≠ claimed_dbfs_norm (1 / 10) (-50) (-6) ∧
    sc_norm_from_amp (1 / 10) (-50) (-6) = 30000 / 44001 ∧
    claimed_dbfs_norm (1 / 10) (-50) (-6) = 15 / 22 := by
  have hlog : Real.logb 10 ((1 : ℝ) / 10) = -1 := by
    rw [show ((1 : ℝ) / 10) = (10 : ℝ)⁻¹ by norm_num, Real.logb_inv,
      Real.logb_self_eq_one (by norm_num)]
  have hdb : sc_db_from_amp (1 / 10) = -20 := by
    unfold sc_db_from_amp
    rw [if_neg (by norm_num), hlog]
    norm_num
  have h1 : sc_norm_from_amp (1 / 10) (-50) (-6) = 30000 / 44001 := by
    unfold sc_norm_from_amp
    rw [hdb, if_pos (by norm_num)]
    have hval : ((-20 : ℝ) - (-50)) / ((-6) - (-50) + 1e-3) = 30000 / 44001 := by
      norm_num
    rw [hval]
    unfold aw_clamp
    rw [if_neg (by norm_num), if_neg (by norm_num)]
  have h2 : claimed_dbfs_norm (1 / 10) (-50) (-6) = 15 / 22 := by
    unfold claimed_dbfs_norm
    rw [if_pos (by norm_num), hlog]
    have hval : ((20 : ℝ) * -1 - (-50)) / max ((-6 : ℝ) - (-50)) 0.1 = 15 / 22 := by
      rw [max_eq_left (by norm_num)]
      norm_num
    show aw_clamp ((20 * -1 - -50) / max (-6 - -50) 0.1) 0 1 = 15 / 22
    rw [hval]
    unfold aw_clamp
    rw [if_neg (by norm_num), if_neg (by norm_num)]
  refine ⟨?_, h1, h2⟩
  rw [h1, h2]
  norm_num

/-- C5 amended: for every linear amplitude `a`, provided `react_db ≤ peak_db`
(the ordering the configuration guarantees), the stacked-columns dBFS policy
maps `a` to `clamp((db - reactDb) / (peakDb - reactDb + 1e-3), 0, 1)` with
`db = 20*log10(a)` when `a > 1e-6` and `-120` otherwise (the code's
`db > reactDb` guard collapses into the clamp); and the configuration-time
forcing — modelled from the spec, the configuration reader being absent from
src — yields a peak at least `reactDb + 0.1`. -/
theorem sc_norm_from_amp_spec (a react peak : ℝ) (h : react ≤ peak) :
    sc_norm_from_amp a react peak =
      aw_clamp ((sc_db_from_amp a - react) / (peak - react + 1e-3)) 0 1 ∧
    react + 0.1 ≤ aw_configured_peak_db react peak := by
  constructor
  · unfold sc_norm_from_amp
    show (if react < sc_db_from_amp a then
        aw_clamp ((sc_db_from_amp a - react) / (peak - react + 1e-3)) 0 1 else 0) =
      aw_clamp ((sc_db_from_amp a - react) / (peak - react + 1e-3)) 0 1
    split
    · rfl
    · next hnd =>
      have hnum : sc_db_from_amp a - react ≤ 0 := by linarith [not_lt.mp hnd]
      have hden : 0 < peak - react + 1e-3 := by
        have h2 : (0 : ℝ) < 1e-3 := by norm_num
        linarith
      have hq : (sc_db_from_amp a - react) / (peak - react + 1e-3) ≤ 0 :=
        div_nonpos_iff.mpr (Or.inr ⟨hnum, hden.le⟩)
      rw [aw_clamp_of_nonpos _ hq]
  · unfold aw_configured_peak_db
    exact le_max_right _ _

theorem sc_norm_from_amp_spec_witness :
    ((-50 : ℝ) ≤ -6) ∧
    sc_norm_from_amp 0 (-50) (-6) =
      aw_clamp ((sc_db_from_amp 0 - (-50)) / ((-6) - (-50) + 1e-3)) 0 1 ∧
    (-50 : ℝ) + 0.1 ≤ aw_configured_peak_db (-50) (-6) := by
  have h := sc_norm_from_amp_spec 0 (-50) (-6) (by norm_num)
  exact ⟨by norm_num, h.1, h.2⟩

/-- Embedding of the wobble-intensity → stiffness mapping in
`rounded_bars_theme_update` (`theme-rounded-bars.cpp`, line 337):
`0.10f + (float)wobble_int * 0.004f`, after the slider value was clamped to
`[0, 100]` on line 331. -/
noncomputable def rb_wobble_stiffness (w : ℤ) : ℝ := 0.10 + (w : ℝ) * 0.004

/-- Embedding of the wobble-intensity → damping mapping in
`rounded_bars_theme_update` (`theme-rounded-bars.cpp`, line 338):
`0.95f - (float)wobble_int * 0.004f`. -/
noncomputable def rb_wobble_damping (w : ℤ) : ℝ := 0.95 - (w : ℝ) * 0.004

/-- Embedding of the per-bar spring update in `rounded_bars_theme_draw`
(`theme-rounded-bars.cpp`, lines 453-464), for an already-initialized bar:
`acc = (target - value) * stiffness; vel = vel * damping + acc;
value += vel;` then `value` is forced into `[0, maxExtra]` by the two
independent guards `if (value < 0)` / `if (value > maxExtraHalf)`.
Returns the stored pair `(value, velocity)`. -/
noncomputable def rb_spring_step (stiffness damping maxExtra value vel target : ℝ) :
    ℝ × ℝ :=
  let acc := (target - value) * stiffness
  let vel' := vel * damping + acc
  let value' := value + vel'
  let v1 := if value' < 0 then 0 else value'
  let v2 := if maxExtra < v1 then maxExtra else v1
  (v2, vel')

/-- C6 counterexample: the code's wobble mapping yields stiffness 0.50 at
intensity 100 (outside the claimed range [0.08, 0.35]) and damping 0.95 at
intensity 0 (outside the claimed range [0.55, 0.92]). -/
theorem rb_wobble_ranges_counterexample :
    rb_wobble_stiffness 100 = 0.50 ∧ ¬rb_wobble_stiffness 100 ≤ 0.35 ∧
    rb_wobble_damping 0 = 0.95 ∧ ¬rb_wobble_damping 0 ≤ 0.92 := by
  refine ⟨?_, ?_, ?_, ?_⟩ <;> norm_num [rb_wobble_stiffness, rb_wobble_damping]

/-- C6 amended: for every wobble intensity in [0, 100], the spring constants
are linear interpolations in the intensity — stiffness from 0.10 (at 0) to
0.50 (at 100), damping from 0.95 (at 0) down to 0.55 (at 100), higher
intensity giving a stiffer, less damped spring — and every per-frame bar
update computes `acc = (target - value) * stiffness`,
`velocity = velocity * damping + acc`, `value += velocity`, with the value
clamped to `[0, maxExtra]`. -/
theorem rb_wobble_spring_spec (w : ℤ) (hw0 : 0 ≤ w) (hw1 : w ≤ 100) :
    (rb_wobble_stiffness w = 0.10 + ((w : ℝ) / 100) * (0.50 - 0.10) ∧
      0.10 ≤ rb_wobble_stiffness w ∧ rb_wobble_stiffness w ≤ 0.50 ∧
      rb_wobble_damping w = 0.95 + ((w : ℝ) / 100) * (0.55 - 0.95) ∧
      0.55 ≤ rb_wobble_damping w ∧ rb_wobble_damping w ≤ 0.95) ∧
    (∀ stiffness damping maxExtra value vel target : ℝ, 0 ≤ maxExtra →
      rb_spring_step stiffness damping maxExtra value vel target =
        (aw_clamp (value + (vel * damping + (target - value) * stiffness)) 0 maxExtra,
         vel * damping + (target - value) * stiffness)) := by
  have hw0' : (0 : ℝ) ≤ (w : ℝ) := by exact_mod_cast hw0
  have hw1' : (w : ℝ) ≤ 100 := by exact_mod_cast hw1
  constructor
  · refine ⟨by unfold rb_wobble_stiffness; ring, ?_, ?_, by unfold rb_wobble_damping; ring,
      ?_, ?_⟩ <;> simp only [rb_wobble_stiffness, rb_wobble_damping] <;> nlinarith
  · intro stiffness damping maxExtra value vel target hmax
    simp only [rb_spring_step, aw_clamp]
    split_ifs <;> first | rfl | (exfalso; linarith)

theorem rb_wobble_spring_spec_witness :
    ((0 : ℤ) ≤ 60 ∧ (60 : ℤ) ≤ 100) ∧
    (0.10 ≤ rb_wobble_stiffness 60 ∧ rb_wobble_stiffness 60 ≤ 0.50) ∧
    (0 : ℝ) ≤ 5 ∧
    rb_spring_step 0.2 0.8 5 1 0 2 =
      (aw_clamp ((1 : ℝ) + ((0 : ℝ) * 0.8 + ((2 : ℝ) - 1) * 0.2)) 0 5,
       (0 : ℝ) * 0.8 + ((2 : ℝ) - 1) * 0.2) := by
  have h := rb_wobble_spring_spec 60 (by norm_num) (by norm_num)
  exact ⟨⟨by norm_num, by norm_num⟩, ⟨h.1.2.1, h.1.2.2.1⟩, by norm_num,
    h.2 0.2 0.8 5 1 0 2 (by norm_num)⟩

/-- Modelled from the spec: the per-element temporal envelope step.  The
filter implementation is absent from src — only its state fields
(`wave_raw`, `wave`, `attack_ms`, `release_ms`, `last_wave_ts_ns`,
`includes/audio-wave.hpp` lines 54-63, with the comment "Applied to
wave_raw -> wave") exist, and the `audio_wave_build_wave` variant present in
src writes `wave` directly.  Spec §4.3: with `tau` the chosen time constant,
"if `tau ≈ 0`, snap to target; else `alpha = 1 - exp(-dt/tau)`,
`value += (target - value) * alpha`; clamp to [0,1]" (`tau ≈ 0` is read as
`tau ≤ 1e-6` seconds). -/
noncomputable def envelope_element (dt tau value target : ℝ) : ℝ :=
  if tau ≤ 1e-6 then target
  else aw_clamp (value + (target - value) * (1 - Real.exp (-dt / tau))) 0 1

/-- Modelled from the spec (see `envelope_element`): the array-level envelope
pass.  Spec §4.3: `dt = clamp(now - lastTimestamp, 0, 0.25s)`;
`tau = rising ? attackSeconds : releaseSeconds` with rising = target >
current; and "if array length changed since last frame, reset
`smoothedAmplitude = rawAmplitude`". -/
noncomputable def envelope_filter (now last attackS releaseS : ℝ)
    (wave wave_raw : List ℝ) : List ℝ :=
  if wave.length ≠ wave_raw.length then wave_raw
  else
    let dt := aw_clamp (now - last) 0 0.25
    List.zipWith (fun value target =>
      envelope_element dt (if value < target then attackS else releaseS) value target)
      wave wave_raw

/-- C1: on every pass the temporal envelope filter moves each element of the
persistent smoothed array toward its raw target: with
`dt = clamp(now - last, 0, 0.25)` and `tau = attackSeconds` when the target
exceeds the current value (else `releaseSeconds`), the element snaps to the
target when `tau ≈ 0` and otherwise is incremented by
`(target - value) * (1 - exp(-dt/tau))` then clamped to `[0,1]`; if the
array length changed, the smoothed array is reset to the raw array.
(Settled against the spec-modelled filter, the implementation being absent
from src.) -/
theorem envelope_filter_correct (now last attackS releaseS : ℝ)
    (wave wave_raw : List ℝ) :
    (wave.length ≠ wave_raw.length →
      envelope_filter now last attackS releaseS wave wave_raw = wave_raw) ∧
    (wave.length = wave_raw.length →
      (envelope_filter now last attackS releaseS wave wave_raw).length = wave.length ∧
      ∀ i, i < wave.length →
        (envelope_filter now last attackS releaseS wave wave_raw).getD i 0 =
          envelope_element (aw_clamp (now - last) 0 0.25)
            (if wave.getD i 0 < wave_raw.getD i 0 then attackS else releaseS)
            (wave.getD i 0) (wave_raw.getD i 0)) := by
  constructor
  · intro h
    simp [envelope_filter, h]
  · intro heq
    have hef : envelope_filter now last attackS releaseS wave wave_raw =
        List.zipWith (fun value target =>
          envelope_element (aw_clamp (now - last) 0 0.25)
            (if value < target then attackS else releaseS) value target)
          wave wave_raw := by
      unfold envelope_filter
      rw [if_neg (by simp [heq])]
    constructor
    · rw [hef]
      simp [heq]
    · intro i hi
      have hir : i < wave_raw.length := by omega
      have hlen : i < (List.zipWith (fun value target =>
          envelope_element (aw_clamp (now - last) 0 0.25)
            (if value < target then attackS else releaseS) value target)
          wave wave_raw).length := by
        simp [heq]
        omega
      rw [hef, List.getD_eq_getElem _ _ hlen, List.getElem_zipWith,
        List.getD_eq_getElem wave _ hi, List.getD_eq_getElem wave_raw _ hir]

theorem envelope_filter_correct_witness :
    ([(0.2 : ℝ)].length = [(0.9 : ℝ)].length) ∧
    (envelope_filter 1 0 0 0.5 [0.2] [0.9]).getD 0 0 = 0.9 := by
  have h := (envelope_filter_correct 1 0 0 0.5 [0.2] [0.9]).2 (by simp)
  refine ⟨by simp, ?_⟩
  rw [h.2 0 (by simp)]
  norm_num [envelope_element]

/-- Primitive kinds of the vertex sink (`GS_LINES`, `GS_LINESTRIP`,
`GS_TRIS`). -/
inductive gs_prim where
  | lines
  | linestrip
  | tris
deriving DecidableEq

/-- One `gs_render_start` … `gs_vertex2f`* … `gs_render_stop` block: a
primitive kind and the emitted vertices, in order. -/
structure gs_batch where
  kind : gs_prim
  verts : List (ℝ × ℝ)

/-- C cast of a nonnegative float to an unsigned integer (`(size_t)x`,
`(uint32_t)x`): truncation toward zero. -/
noncomputable def size_t_cast (x : ℝ) : ℕ := ⌊x⌋.toNat

/-- Modelled from the spec: `audio_wave_apply_curve` is declared in
`includes/audio-wave.hpp` lines 236-239 ("Apply curve_power (gamma-like)
shaping to a normalized value [0..1]") but its definition is absent from
src.  Spec §3: `curvePower` is a power-law gamma applied after the linear
gain. -/
noncomputable def audio_wave_apply_curve (s : audio_wave_source) (v : ℝ) : ℝ :=
  v ^ s.curve_power

/-- Model of `struct line_theme_data` (`theme-line.cpp`, lines 18-23).
`inited` is the source field `initialized`. -/
structure line_theme_data where
  prev_y : List ℝ
  inited : Bool
  curve_count : ℤ
  outline_thickness : ℤ

/-- Embedding of `sample_index_for_x` (`theme-line.cpp`, lines 98-114). -/
noncomputable def sample_index_for_x (d : line_theme_data) (x width_u frames : ℕ) : ℕ :=
  if width_u ≤ 1 ∨ frames ≤ 1 then 0
  else
    let u := (x : ℝ) / ((width_u : ℝ) - 1)
    let curve_count := max d.curve_count 1
    let pos := u * (curve_count : ℝ)
    let frac := pos - (⌊pos⌋ : ℝ)
    let f_idx := frac * ((frames : ℝ) - 1)
    let idx := size_t_cast f_idx
    if frames ≤ idx then frames - 1 else idx

/-- Embedding of `draw_line_linear` (`theme-line.cpp`, lines 120-180):
resample the wave to one amplitude per pixel column, optionally apply the
alpha-0.15 spatial smoothing pass, then emit one line strip (plus a mirrored
strip when `mirror` is set).  Color-parameter updates are not part of the
vertex stream. -/
noncomputable def draw_line_linear (s : audio_wave_source) (smooth : Bool) :
    List gs_batch :=
  let frames := s.wave.length
  if frames = 0 ∨ s.width ≤ 0 ∨ s.height ≤ 0 then []
  else
    let w : ℝ := (s.width : ℝ)
    let h : ℝ := (s.height : ℝ)
    let mid_y := h * 0.5
    let top_margin : ℝ := 2
    let width_u : ℕ := s.width.toNat
    if width_u = 0 then []
    else
      let amp : List ℝ := (List.range width_u).map (fun x =>
        let idx := size_t_cast ((x : ℝ) * ((frames : ℝ) - 1) / max 1 (w - 1))
        if idx < frames then s.wave.getD idx 0 else 0)
      let a := if smooth then spatial_smooth 0.15 amp else amp
      let main : gs_batch := ⟨gs_prim.linestrip, (List.range width_u).map (fun x =>
        let v := audio_wave_apply_curve s (a.getD x 0)
        ((x : ℝ), mid_y - v * (mid_y - top_margin)))⟩
      if s.mirror = false then [main]
      else [main, ⟨gs_prim.linestrip, (List.range width_u).map (fun x =>
        let v := audio_wave_apply_curve s (a.getD x 0)
        let y := mid_y - v * (mid_y - top_margin)
        ((x : ℝ), mid_y + (mid_y - y)))⟩]

/-- Embedding of `draw_line_bars` (`theme-line.cpp`, lines 182-222): one
vertical bar every 3 pixel columns, emitted as a single `GS_LINES` batch
(with the mirrored half interleaved when `mirror` is set). -/
noncomputable def draw_line_bars (s : audio_wave_source) : List gs_batch :=
  let frames := s.wave.length
  if frames = 0 ∨ s.width ≤ 0 ∨ s.height ≤ 0 then []
  else
    let w : ℝ := (s.width : ℝ)
    let h : ℝ := (s.height : ℝ)
    let mid_y := h * 0.5
    let width_u : ℕ := s.width.toNat
    if width_u = 0 then []
    else
      let amp : List ℝ := (List.range width_u).map (fun x =>
        let idx := size_t_cast ((x : ℝ) * ((frames : ℝ) - 1) / max 1 (w - 1))
        if idx < frames then s.wave.getD idx 0 else 0)
      let step := 3
      let xs := (List.range width_u).filter (fun x => x % step = 0)
      [⟨gs_prim.lines, xs.flatMap (fun x =>
        let v := audio_wave_apply_curve s (amp.getD x 0)
        let y := mid_y - v * (mid_y - 4)
        if s.mirror then
          [((x : ℝ), mid_y), ((x : ℝ), y),
           ((x : ℝ), mid_y), ((x : ℝ), mid_y + (mid_y - y))]
        else [((x : ℝ), mid_y), ((x : ℝ), y)])⟩]

/-- Embedding of `draw_line_filled` (`theme-line.cpp`, lines 224-354): the
alpha-0.20 spatial pass, the per-column temporal smoothing against the
persistent `prev_y` (whose per-element writes are modelled as a wholesale
replacement by the computed `ys`), the filled triangle batch and the
`outline_thickness` offset line strips.  Returns the updated theme data and
the emitted batches. -/
noncomputable def draw_line_filled (s : audio_wave_source) (d : line_theme_data) :
    line_theme_data × List gs_batch :=
  let frames := s.wave.length
  if frames = 0 ∨ s.width ≤ 0 ∨ s.height ≤ 0 then (d, [])
  else
    let h : ℝ := (s.height : ℝ)
    let baseline := h
    let top_margin : ℝ := 2
    let mid_y := h * 0.5
    let width_u : ℕ := s.width.toNat
    if width_u = 0 then (d, [])
    else
      let amp : List ℝ := (List.range width_u).map (fun x =>
        let idx := sample_index_for_x d x width_u frames
        if idx < frames then s.wave.getD idx 0 else 0)
      let amp_smooth := spatial_smooth 0.20 amp
      let d1 := if d.prev_y.length ≠ width_u then
          { d with prev_y := List.replicate width_u baseline, inited := false }
        else d
      let alpha_time : ℝ := 0.30
      let ys : List ℝ := (List.range width_u).map (fun x =>
        let a_raw := amp_smooth.getD x 0
        let v0 := audio_wave_apply_curve s a_raw
        let v1 := if v0 < 0 then 0 else v0
        let v := if 1 < v1 then 1 else v1
        let y_current := top_margin + (1 - v) * (h - top_margin)
        let y_prev := if d1.inited then d1.prev_y.getD x 0 else y_current
        y_prev + alpha_time * (y_current - y_prev))
      let d2 := { d1 with prev_y := ys, inited := true }
      let fill : gs_batch := ⟨gs_prim.tris, (List.range (width_u - 1)).flatMap (fun x =>
        let y1 := ys.getD x 0
        let y2 := ys.getD (x + 1) 0
        let base := [((x : ℝ), baseline), ((x : ℝ), y1), ((x : ℝ) + 1, baseline),
                     ((x : ℝ) + 1, baseline), ((x : ℝ), y1), ((x : ℝ) + 1, y2)]
        if s.mirror then
          let y1m := aw_clamp (2 * mid_y - y1) 0 h
          let y2m := aw_clamp (2 * mid_y - y2) 0 h
          base ++ [((x : ℝ), 0), ((x : ℝ), y1m), ((x : ℝ) + 1, 0),
                   ((x : ℝ) + 1, 0), ((x : ℝ), y1m), ((x : ℝ) + 1, y2m)]
        else base)⟩
      let thick : ℤ := max d.outline_thickness 1
      let half : ℝ := ((thick : ℝ) - 1) * 0.5
      let outline : List gs_batch := (List.range thick.toNat).flatMap (fun t =>
        let offset := (t : ℝ) - half
        let b1 : gs_batch := ⟨gs_prim.linestrip, (List.range width_u).map (fun x =>
          let yv := aw_clamp (ys.getD x 0 + offset) 0 h
          ((x : ℝ), yv))⟩
        if s.mirror then
          [b1, ⟨gs_prim.linestrip, (List.range width_u).map (fun x =>
            let yv := aw_clamp (2 * mid_y - ys.getD x 0 + offset) 0 h
            ((x : ℝ), yv))⟩]
        else [b1])
      (d2, fill :: outline)

/-- Embedding of `line_theme_draw` (`theme-line.cpp`, lines 356-390): the
size guard, the flat-midline fallback for fewer than 2 wave samples
(lines 369-379), and the style dispatch. -/
noncomputable def line_theme_draw (s : audio_wave_source) (d : line_theme_data) :
    line_theme_data × List gs_batch :=
  if s.width ≤ 0 ∨ s.height ≤ 0 then (d, [])
  else
    let h : ℝ := (s.height : ℝ)
    let mid_y := h * 0.5
    let frames := s.wave.length
    if frames < 2 then
      (d, [⟨gs_prim.linestrip,
        (List.range s.width.toNat).map (fun x => ((x : ℝ), mid_y))⟩])
    else if s.theme_style_id = "bars" then (d, draw_line_bars s)
    else if s.theme_style_id = "filled" then draw_line_filled s d
    else (d, draw_line_linear s true)

/-- Embedding of `rb_db_from_amp` (`theme-rounded-bars.cpp`, lines 32-37). -/
noncomputable def rb_db_from_amp (a : ℝ) : ℝ :=
  if a ≤ 1e-6 then -120 else 20 * Real.logb 10 a

/-- Embedding of `rb_clamp01` (`theme-rounded-bars.cpp`, lines 39-46). -/
noncomputable def rb_clamp01 (v : ℝ) : ℝ :=
  if v < 0 then 0 else if 1 < v then 1 else v

/-- Embedding of `rb_draw_rounded_bar` (`theme-rounded-bars.cpp`,
lines 52-139): a full pill — optional rectangle body plus two semicircular
caps, each cap one `GS_TRIS` batch of `capSegments` triangles. -/
noncomputable def rb_draw_rounded_bar (cx y_bottom height barWidth : ℝ)
    (capSegments : ℤ) : List gs_batch :=
  if height ≤ 0 ∨ barWidth ≤ 0 then []
  else
    let radius := barWidth * 0.5
    let minHeight := 2 * radius
    let height1 := if height < minHeight then minHeight else height
    let y_top := y_bottom - height1
    let y_top_center := y_top + radius
    let y_bottom_center := y_bottom - radius
    let left := cx - radius
    let right := cx + radius
    let body : List gs_batch :=
      if y_top_center < y_bottom_center then
        [⟨gs_prim.tris,
          [(left, y_bottom_center), (right, y_bottom_center), (right, y_top_center),
           (left, y_bottom_center), (right, y_top_center), (left, y_top_center)]⟩]
      else []
    let segments : ℤ := max capSegments 4
    let step := Real.pi / (segments : ℝ)
    let top_cap : gs_batch := ⟨gs_prim.tris, (List.range segments.toNat).flatMap (fun i =>
      let theta0 := step * (i : ℝ)
      let theta1 := step * ((i : ℝ) + 1)
      [(cx, y_top_center),
       (cx + Real.cos theta0 * radius, y_top_center - Real.sin theta0 * radius),
       (cx + Real.cos theta1 * radius, y_top_center - Real.sin theta1 * radius)])⟩
    let bottom_cap : gs_batch := ⟨gs_prim.tris, (List.range segments.toNat).flatMap (fun i =>
      let theta0 := step * (i : ℝ)
      let theta1 := step * ((i : ℝ) + 1)
      [(cx, y_bottom_center),
       (cx + Real.cos theta0 * radius, y_bottom_center + Real.sin theta0 * radius),
       (cx + Real.cos theta1 * radius, y_bottom_center + Real.sin theta1 * radius)])⟩
    body ++ [top_cap, bottom_cap]

/-- Embedding of `rb_draw_rounded_bar_half_up` (`theme-rounded-bars.cpp`,
lines 144-202): flat bottom edge at the center line, rounded top cap. -/
noncomputable def rb_draw_rounded_bar_half_up (cx centerY halfHeight barWidth : ℝ)
    (capSegments : ℤ) : List gs_batch :=
  if halfHeight ≤ 0 ∨ barWidth ≤ 0 then []
  else
    let radius := barWidth * 0.5
    let halfHeight1 := if halfHeight < radius then radius else halfHeight
    let y_bottom := centerY
    let y_top := centerY - halfHeight1
    let left := cx - radius
    let right := cx + radius
    let y_cap_center := y_top + radius
    let body : List gs_batch :=
      if y_cap_center < y_bottom then
        [⟨gs_prim.tris,
          [(left, y_bottom), (right, y_bottom), (right, y_cap_center),
           (left, y_bottom), (right, y_cap_center), (left, y_cap_center)]⟩]
      else []
    let segments : ℤ := max capSegments 4
    let step := Real.pi / (segments : ℝ)
    let cap : gs_batch := ⟨gs_prim.tris, (List.range segments.toNat).flatMap (fun i =>
      let theta0 := step * (i : ℝ)
      let theta1 := step * ((i : ℝ) + 1)
      [(cx, y_cap_center),
       (cx + Real.cos theta0 * radius, y_cap_center - Real.sin theta0 * radius),
       (cx + Real.cos theta1 * radius, y_cap_center - Real.sin theta1 * radius)])⟩
    body ++ [cap]

/-- Embedding of `rb_draw_rounded_bar_half_down` (`theme-rounded-bars.cpp`,
lines 207-265): flat top edge at the center line, rounded bottom cap. -/
noncomputable def rb_draw_rounded_bar_half_down (cx centerY halfHeight barWidth : ℝ)
    (capSegments : ℤ) : List gs_batch :=
  if halfHeight ≤ 0 ∨ barWidth ≤ 0 then []
  else
    let radius := barWidth * 0.5
    let halfHeight1 := if halfHeight < radius then radius else halfHeight
    let y_top := centerY
    let y_bottom := centerY + halfHeight1
    let left := cx - radius
    let right := cx + radius
    let y_cap_center := y_bottom - radius
    let body : List gs_batch :=
      if y_top < y_cap_center then
        [⟨gs_prim.tris,
          [(left, y_cap_center), (right, y_cap_center), (right, y_top),
           (left, y_cap_center), (right, y_top), (left, y_top)]⟩]
      else []
    let segments : ℤ := max capSegments 4
    let step := Real.pi / (segments : ℝ)
    let cap : gs_batch := ⟨gs_prim.tris, (List.range segments.toNat).flatMap (fun i =>
      let theta0 := step * (i : ℝ)
      let theta1 := step * ((i : ℝ) + 1)
      [(cx, y_cap_center),
       (cx + Real.cos theta0 * radius, y_cap_center + Real.sin theta0 * radius),
       (cx + Real.cos theta1 * radius, y_cap_center + Real.sin theta1 * radius)])⟩
    body ++ [cap]

/-- Model of `struct rounded_bars_theme_data` (`theme-rounded-bars.cpp`,
lines 271-287).  `inited` is the source field `initialized`. -/
structure rounded_bars_theme_data where
  value : List ℝ
  velocity : List ℝ
  inited : Bool
  db_floor : ℝ
  db_target : ℝ
  db_react : ℝ
  bars : ℕ
  wobble_stiffness : ℝ
  wobble_damping : ℝ
  mirror_vertical : Bool

/-- Embedding of `rounded_bars_theme_draw` (`theme-rounded-bars.cpp`,
lines 361-501): the size guard, the `frames < 2` early return (lines
366-368, which emits nothing), the lazy per-bar state buffers, the dB-window
target computation, the spring update (via `rb_spring_step`, with the
uninitialized case seeding `value = target`, `vel = 0`), and the per-bar
pill geometry.  Returns the updated theme data and the emitted batches. -/
noncomputable def rounded_bars_theme_draw (s : audio_wave_source)
    (d : rounded_bars_theme_data) : rounded_bars_theme_data × List gs_batch :=
  if s.width ≤ 0 ∨ s.height ≤ 0 then (d, [])
  else
    let frames := s.wave.length
    if frames < 2 then (d, [])
    else
      let w : ℝ := (s.width : ℝ)
      let h : ℝ := (s.height : ℝ)
      let bars := max d.bars 8
      let d1 := if d.value.length ≠ bars then
          { d with value := List.replicate bars 0,
                   velocity := List.replicate bars 0, inited := false }
        else d
      let marginX := w * 0.05
      let usableW := w - marginX * 2
      let gap_frac : ℝ := 0.20
      let slotW := usableW / (bars : ℝ)
      let barWidth0 := slotW * (1 - gap_frac)
      let barWidth := if barWidth0 < 1 then 1 else barWidth0
      let gap := slotW - barWidth
      let totalW := (bars : ℝ) * (barWidth + gap) - gap
      let startX := (w - totalW) * 0.5
      let centerY := h * 0.5
      let maxHalfHeight := h * 0.4
      let baseFraction : ℝ := 0.20
      let baseHalfHeight := maxHalfHeight * baseFraction
      let maxExtraHalf := maxHalfHeight - baseHalfHeight
      let targetExtraHalf : List ℝ := (List.range bars).map (fun i =>
        let u := (i : ℝ) / ((bars : ℝ) - 1)
        let idx := size_t_cast (u * ((frames : ℝ) - 1))
        let a0 := if idx < frames then s.wave.getD idx 0 else 0
        let a := if a0 < 1e-6 then 0 else a0
        let db := rb_db_from_amp a
        let extraNorm0 := if d1.db_react < db then
            rb_clamp01 ((db - d1.db_react) / (d1.db_target - d1.db_react + 1e-3))
          else 0
        let extraNorm := audio_wave_apply_curve s extraNorm0
        extraNorm * maxExtraHalf)
      let springs : List (ℝ × ℝ) := (List.range bars).map (fun i =>
        let target := targetExtraHalf.getD i 0
        let value := if d1.inited then d1.value.getD i 0 else target
        let vel := if d1.inited then d1.velocity.getD i 0 else 0
        rb_spring_step d1.wobble_stiffness d1.wobble_damping maxExtraHalf
          value vel target)
      let d2 := { d1 with value := springs.map Prod.fst,
                          velocity := springs.map Prod.snd, inited := true }
      let capSegments : ℤ := 12
      let geom : List gs_batch := (List.range bars).flatMap (fun i =>
        let centerX := startX + (i : ℝ) * (barWidth + gap) + barWidth * 0.5
        let extraHalf := (springs.map Prod.fst).getD i 0
        let halfHeightSide := baseHalfHeight + extraHalf
        if halfHeightSide ≤ 0.5 then []
        else if d1.mirror_vertical then
          rb_draw_rounded_bar_half_up centerX centerY halfHeightSide barWidth capSegments ++
          rb_draw_rounded_bar_half_down centerX centerY halfHeightSide barWidth capSegments
        else rb_draw_rounded_bar centerX centerY halfHeightSide barWidth capSegments)
      (d2, geom)

/-- The flat-midline fallback as the claim states it: exactly one horizontal
line strip at `y = height/2` with one vertex per integer `x` in
`[0, width)`. -/
noncomputable def flat_midline (width height : ℤ) : List gs_batch :=
  [⟨gs_prim.linestrip,
    (List.range width.toNat).map (fun x => ((x : ℝ), (height : ℝ) / 2))⟩]

/-- The default-constructed rounded-bars theme data
(`rounded_bars_theme_data{}` field initializers). -/
def rb_data0 : rounded_bars_theme_data :=
  { value := [], velocity := [], inited := false, db_floor := -50, db_target := -10,
    db_react := -40, bars := 32, wobble_stiffness := 0.20, wobble_damping := 0.80,
    mirror_vertical := false }

/-- The default-constructed line theme data (`line_theme_data{}` field
initializers). -/
def line_data0 : line_theme_data :=
  { prev_y := [], inited := false, curve_count := 3, outline_thickness := 2 }

/-- C2 counterexample: on a 4×2 canvas with an empty amplitude array, the
rounded-bars theme's draw emits no geometry at all (it returns before its
first `gs_render_start`), not the single horizontal midline the claim
requires of every theme. -/
theorem rounded_bars_flat_fallback_counterexample :
    state0.wave.length < 2 ∧
    (rounded_bars_theme_draw state0 rb_data0).2 = [] ∧
    (rounded_bars_theme_draw state0 rb_data0).2 ≠ flat_midline state0.width state0.height := by
  have h : (rounded_bars_theme_draw state0 rb_data0).2 = [] := by
    simp only [rounded_bars_theme_draw]
    rw [if_neg (by norm_num [state0]), if_pos (by norm_num [state0])]
  refine ⟨by norm_num [state0], h, ?_⟩
  rw [h]
  intro hcontra
  simp [flat_midline] at hcontra

/-- C2 amended: with a positive canvas and fewer than 2 amplitude samples,
the line theme's draw emits exactly one horizontal line at `y = height/2`
spanning `x ∈ [0, width)` (leaving its private state unchanged), but the
rounded-bars theme's draw returns early and emits nothing. -/
theorem flat_fallback_spec (s : audio_wave_source) (d : line_theme_data)
    (d' : rounded_bars_theme_data)
    (hw : 1 ≤ s.width) (hh : 1 ≤ s.height) (hf : s.wave.length < 2) :
    (line_theme_draw s d).2 = flat_midline s.width s.height ∧
    (line_theme_draw s d).1 = d ∧
    (rounded_bars_theme_draw s d').2 = [] ∧
    (rounded_bars_theme_draw s d').1 = d' := by
  have hcond : ¬(s.width ≤ 0 ∨ s.height ≤ 0) := by omega
  have hmy : (s.height : ℝ) * 0.5 = (s.height : ℝ) / 2 := by ring
  refine ⟨?_, ?_, ?_, ?_⟩
  · simp only [line_theme_draw]
    rw [if_neg hcond, if_pos hf]
    simp [flat_midline, hmy]
  · simp only [line_theme_draw]
    rw [if_neg hcond, if_pos hf]
  · simp only [rounded_bars_theme_draw]
    rw [if_neg hcond, if_pos hf]
  · simp only [rounded_bars_theme_draw]
    rw [if_neg hcond, if_pos hf]

theorem flat_fallback_spec_witness :
    ((1 : ℤ) ≤ state0.width ∧ (1 : ℤ) ≤ state0.height ∧ state0.wave.length < 2) ∧
    (line_theme_draw state0 line_data0).2 = flat_midline state0.width state0.height ∧
    (rounded_bars_theme_draw state0 rb_data0).2 = [] := by
  have h := flat_fallback_spec state0 line_data0 rb_data0 (by norm_num [state0])
    (by norm_num [state0]) (by norm_num [state0])
  exact ⟨⟨by norm_num [state0], by norm_num [state0], by norm_num [state0]⟩,
    h.1, h.2.2.1⟩

end AudioWave
